import Mathlib

/-!
# Verification of the mini_wallet transfer engine

A shallow embedding of the mini_wallet backend (PHP/Laravel) in Lean 4:

* `commission`, `transfer`                — `App\Services\TransferService`
* `getPaginatedForUser`, `transactionIndex` — `App\Repositories\TransactionRepository`
  and `App\Http\Controllers\TransactionController::index`
* `transferRequestErrors`, `storeTransaction` — `App\Http\Requests\TransferRequest`
  and `App\Http\Controllers\TransactionController::store`
* `handleOutbox`                          — `App\Jobs\ProcessTransactionOutbox`

Modelling conventions:

* PHP integers become `ℤ` (ids become `ℕ`); the database rows become Lean
  structures, tables become lists, and freshly generated uuids / surrogate ids
  become counters threaded through the state.
* `DB::transaction` with rollback-on-exception becomes `Except`: an error
  result carries no state, so a failed attempt leaves the state unchanged.
* PHP's `ceil($amount * 0.015)` is modelled with exact rational arithmetic
  (`0.015 = 15/1000` as a `ℚ`); the float rounding of the double nearest to
  0.015 agrees with the exact value on every realistic minor-unit amount.
* Row updates address rows by primary key; since primary keys are unique in
  the database, updating the first matching row of the list is faithful.
* The deadlock-retry loop of `TransferService::transfer` re-runs the identical
  atomic block; deadlocks do not arise in this sequential model, so a single
  attempt is embedded.
-/

namespace MiniWallet

/-- Commission rate: `TransferService::COMMISSION_RATE = 0.015` (exact value, 1.5%). -/
def commissionRate : ℚ := 15 / 1000

/-- Commission computation of `TransferService::transfer`, line 125:
`$commission = (int) ceil($amount * self::COMMISSION_RATE);`
The product `amount × 0.015` is built as the exact rational
`(amount · 15) / 1000` (`mkRat`), and `Rat.ceil` is the executable ceiling;
`commission_def` below restates this as `⌈amount × commissionRate⌉`. -/
def commission (amount : ℤ) : ℤ :=
  (mkRat (amount * 15) 1000).ceil

/-- Derived quantity `total_debited = amount + commission` (line 126). -/
def totalDebited (amount : ℤ) : ℤ :=
  amount + commission amount

/-- A row of the `users` table (`App\Models\User`): current balance and the
`initial_balance` frozen at registration. -/
structure User where
  id : ℕ
  name : String
  email : String
  balance : ℤ
  initial_balance : ℤ
deriving DecidableEq

/-- A row of the `transactions` table (`App\Models\Transaction`): an immutable
ledger entry. `created_at` is a logical timestamp (the store's clock). -/
structure Transaction where
  uuid : ℕ
  sender_id : ℕ
  receiver_id : ℕ
  amount : ℤ
  commission : ℤ
  status : String
  idempotency_key : String
  metadata : String
  created_at : ℕ
deriving DecidableEq

/-- A row of `balance_snapshots` (`App\Models\BalanceSnapshot`). -/
structure BalanceSnapshot where
  user_id : ℕ
  balance : ℤ
  transaction_uuid : ℕ
deriving DecidableEq

/-- The structured payload written into `transaction_outbox.payload`
(`TransferService::transfer`, lines 209-217). -/
structure OutboxPayload where
  transaction_uuid : ℕ
  sender_id : ℕ
  receiver_id : ℕ
  amount : ℤ
  commission : ℤ
  sender_balance : ℤ
  receiver_balance : ℤ
deriving DecidableEq

/-- A row of `transaction_outbox` (`App\Models\TransactionOutbox`). -/
structure OutboxEntry where
  id : ℕ
  transaction_uuid : ℕ
  event_type : String
  payload : OutboxPayload
  status : String
  attempts : ℕ
deriving DecidableEq

/-- The relational store: the four tables plus counters for generated
transaction uuids / outbox surrogate ids and a logical clock for
`created_at` timestamps. -/
structure WalletState where
  users : List User
  transactions : List Transaction
  snapshots : List BalanceSnapshot
  outbox : List OutboxEntry
  next_uuid : ℕ
  next_outbox_id : ℕ
  clock : ℕ
deriving DecidableEq

/-- The distinct failure kinds thrown by `TransferService::transfer`
(each is a PHP `\Exception` with the quoted message). -/
inductive TransferError where
  /-- Thrown as `Cannot transfer to yourself`. -/
  | selfTransfer
  /-- Thrown as `Amount must be positive`. -/
  | invalidAmount
  /-- Thrown as `Sender or receiver not found`. -/
  | userNotFound
  /-- Thrown as `Insufficient balance`. -/
  | insufficientBalance
deriving DecidableEq

/-- Input validation `TransferService::validateTransferInputs` (lines 254-263): rejects
self-transfers and non-positive amounts, nothing else. -/
def validateTransferInputs (sender_id receiver_id : ℕ) (amount : ℤ) :
    Option TransferError :=
  if sender_id = receiver_id then some .selfTransfer
  else if amount ≤ 0 then some .invalidAmount
  else none

/-- Row lookup by primary key (`User::whereIn('id', …)->get()->keyBy('id')`
followed by `->get($id)`). -/
def findUser (users : List User) (uid : ℕ) : Option User :=
  users.find? (fun u => u.id = uid)

/-- Balance write `user->balance = b; user->save()`: write the balance of the row whose
primary key is `uid` (primary keys are unique, so the first match is the row). -/
def setBalance : List User → ℕ → ℤ → List User
  | [], _, _ => []
  | u :: rest, uid, b =>
    if u.id = uid then { u with balance := b } :: rest
    else u :: setBalance rest uid b

/-- The engine `TransferService::transfer` (lines 115-247), one attempt of the atomic
block: validate inputs, look up the idempotency key (replay returns the stored
row unchanged), load both users, check the balance, debit/credit, and insert
the ledger row, the two snapshots and the outbox entry. An `Except.error`
result is a rollback: it carries no state. -/
def transfer (st : WalletState) (sender_id receiver_id : ℕ) (amount : ℤ)
    (idempotency_key : String) (metadata : String) :
    Except TransferError (Transaction × WalletState) :=
  match validateTransferInputs sender_id receiver_id amount with
  | some e => .error e
  | none =>
    let c := commission amount
    let d := amount + c
    match st.transactions.find? (fun t => t.idempotency_key = idempotency_key) with
    | some existing => .ok (existing, st)
    | none =>
      match findUser st.users sender_id, findUser st.users receiver_id with
      | some sender, some receiver =>
        if sender.balance < d then .error .insufficientBalance
        else
          let users1 := setBalance st.users sender_id (sender.balance - d)
          let users2 := setBalance users1 receiver_id (receiver.balance + amount)
          let t : Transaction :=
            { uuid := st.next_uuid, sender_id := sender_id,
              receiver_id := receiver_id, amount := amount, commission := c,
              status := "completed", idempotency_key := idempotency_key,
              metadata := metadata, created_at := st.clock }
          let snapSender : BalanceSnapshot :=
            { user_id := sender_id, balance := sender.balance - d,
              transaction_uuid := st.next_uuid }
          let snapReceiver : BalanceSnapshot :=
            { user_id := receiver_id, balance := receiver.balance + amount,
              transaction_uuid := st.next_uuid }
          let ob : OutboxEntry :=
            { id := st.next_outbox_id, transaction_uuid := st.next_uuid,
              event_type := "money.transferred",
              payload :=
                { transaction_uuid := st.next_uuid, sender_id := sender_id,
                  receiver_id := receiver_id, amount := amount, commission := c,
                  sender_balance := sender.balance - d,
                  receiver_balance := receiver.balance + amount },
              status := "pending", attempts := 0 }
          .ok (t,
            { users := users2,
              transactions := st.transactions ++ [t],
              snapshots := st.snapshots ++ [snapSender, snapReceiver],
              outbox := st.outbox ++ [ob],
              next_uuid := st.next_uuid + 1,
              next_outbox_id := st.next_outbox_id + 1,
              clock := st.clock + 1 })
      | _, _ => .error .userNotFound

/-- One transfer call as state transition: a thrown exception rolls the
store back, leaving the state unchanged. -/
structure TransferCall where
  sender_id : ℕ
  receiver_id : ℕ
  amount : ℤ
  idempotency_key : String
  metadata : String

/-- Apply one `transfer` call to the store (errors keep the state). -/
def applyTransfer (st : WalletState) (call : TransferCall) : WalletState :=
  match transfer st call.sender_id call.receiver_id call.amount
      call.idempotency_key call.metadata with
  | .ok (_, st1) => st1
  | .error _ => st

/-- Run a finite sequence of transfer calls. -/
def runTransfers (st : WalletState) (calls : List TransferCall) : WalletState :=
  calls.foldl applyTransfer st

/-- Sum of `balance − initial_balance` over the users table. -/
def balanceDelta (users : List User) : ℤ :=
  (users.map (fun u => u.balance - u.initial_balance)).sum

/-- Sum of `commission` over the `completed` rows of the transactions table. -/
def completedCommission (txs : List Transaction) : ℤ :=
  ((txs.filter (fun t => t.status = "completed")).map (fun t => t.commission)).sum

/-- Conservation invariant P1 of the spec. -/
def conservation (st : WalletState) : Prop :=
  balanceDelta st.users + completedCommission st.transactions = 0

/-- The executable ceiling `Rat.ceil` agrees with the mathematical ceiling. -/
lemma ratCeil_eq (q : ℚ) : q.ceil = ⌈q⌉ := by
  unfold Rat.ceil
  split_ifs with h
  · have hq : (q.num : ℚ) = q := by
      conv_rhs => rw [← Rat.num_div_den q]
      rw [h]
      simp
    rw [← hq, Int.ceil_intCast, Rat.num_intCast]
  · have h1 : q.num / (q.den : ℤ) = ⌊q⌋ := Rat.floor_def.symm
    rw [h1]
    have hne : ((⌊q⌋ : ℚ)) ≠ q := by
      intro hEq
      have hden : q.den = 1 := by
        rw [← hEq]
        exact Rat.den_intCast _
      exact h hden
    have hlt : (⌊q⌋ : ℚ) < q := lt_of_le_of_ne (Int.floor_le q) hne
    have hle : ⌈q⌉ ≤ ⌊q⌋ + 1 := by
      refine Int.ceil_le.mpr ?_
      have := Int.lt_floor_add_one q
      push_cast
      linarith
    have hge : ⌊q⌋ < ⌈q⌉ := Int.lt_ceil.mpr hlt
    omega

/-- The function `commission` is the mathematical ceiling of `amount × commissionRate`. -/
lemma commission_def (a : ℤ) : commission a = ⌈(a : ℚ) * commissionRate⌉ := by
  rw [commission, ratCeil_eq, commissionRate]
  congr 1
  rw [Rat.mkRat_eq_divInt, Rat.divInt_eq_div]
  push_cast
  ring

/-- The function `commission` computes the exact mathematical ceiling of `amount × 3/200`. -/
lemma commission_eq_ceil (a : ℤ) : commission a = ⌈(a * 3 : ℚ) / 200⌉ := by
  rw [commission_def, commissionRate]
  congr 1
  ring

/-- Decidable equality of `Except` results, for evaluating the engine on
concrete inputs. -/
instance {ε α : Type} [DecidableEq ε] [DecidableEq α] : DecidableEq (Except ε α)
  | .ok a, .ok b =>
    match decEq a b with
    | isTrue h => isTrue (h ▸ rfl)
    | isFalse h => isFalse fun hc => h (Except.ok.inj hc)
  | .ok _, .error _ => isFalse fun hc => Except.noConfusion hc
  | .error _, .ok _ => isFalse fun hc => Except.noConfusion hc
  | .error a, .error b =>
    match decEq a b with
    | isTrue h => isTrue (h ▸ rfl)
    | isFalse h => isFalse fun hc => h (Except.error.inj hc)

/-! ### Transaction listing (`TransactionRepository::getPaginatedForUser`,
`TransactionController::index`) -/

/-- The `where` clause of `TransactionRepository::getPaginatedForUser`
(lines 43-53): `'in'` filters on `receiver_id`, `'out'` on `sender_id`,
anything else (including a null direction) keeps rows where the user is
sender **or** receiver. -/
def directionFilter (userId : ℕ) (direction : Option String) (t : Transaction) : Bool :=
  match direction with
  | some "in" => t.receiver_id == userId
  | some "out" => t.sender_id == userId
  | _ => t.sender_id == userId || t.receiver_id == userId

/-- Insert a row into a list kept in descending `created_at` order. -/
def insertDesc (t : Transaction) : List Transaction → List Transaction
  | [] => [t]
  | u :: rest =>
    if u.created_at ≤ t.created_at then t :: u :: rest
    else u :: insertDesc t rest

/-- Ordering `orderBy(created_at, desc)` (insertion sort on the timestamp). -/
def orderByCreatedAtDesc (l : List Transaction) : List Transaction :=
  l.foldr insertDesc []

/-- Listing `TransactionRepository::getPaginatedForUser` (lines 41-58):
filter by direction, order by `created_at` descending, and return the
requested page (`paginate($perPage)` serves rows
`(page-1)·perPage … page·perPage`). -/
def getPaginatedForUser (txs : List Transaction) (userId : ℕ) (perPage : ℕ)
    (direction : Option String) (page : ℕ) : List Transaction :=
  ((orderByCreatedAtDesc (txs.filter (directionFilter userId direction))).drop
    ((page - 1) * perPage)).take perPage

/-- Endpoint `TransactionController::index` (lines 241-260): the query parameter
`direction` defaults to `'all'`; `per_page` defaults to 20 and is clamped to
100; `'all'` is translated to a null direction and any other string is passed
through to the repository unchanged. -/
def transactionIndex (st : WalletState) (userId : ℕ) (direction : Option String)
    (perPage : Option ℕ) (page : ℕ) : List Transaction :=
  let dir := direction.getD "all"
  let pp := min (perPage.getD 20) 100
  getPaginatedForUser st.transactions userId pp
    (if dir = "all" then none else some dir) page

/-! ### The POST /api/transactions edge (`TransferRequest`,
`TransactionController::store`) -/

/-- Lookup `UserRepository::findByEmail`. -/
def findUserByEmail (users : List User) (email : String) : Option User :=
  users.find? (fun u => u.email = email)

/-- The failure messages of `TransferRequest`: the `exists:users,email` rule
(message `'No user found with this email'`), the `min:1` rule on the integer
amount (message `'Amount must be greater than 0'`), and the `withValidator`
hook rejecting a transfer to the caller's own email. The `required` and
email-format rules are elided: inputs are modelled as present strings. -/
def transferRequestErrors (users : List User) (senderEmail receiver_email : String)
    (amount : ℤ) : List String :=
  (if (findUserByEmail users receiver_email).isNone
    then ["No user found with this email"] else [])
    ++ (if amount < 1 then ["Amount must be greater than 0"] else [])
    ++ (if receiver_email = senderEmail
      then ["You cannot transfer money to yourself"] else [])

/-- The JSON response of POST /api/transactions: HTTP status, validation
messages, and the committed row on success. -/
structure StoreResult where
  status : ℕ
  messages : List String
  transaction : Option Transaction
deriving DecidableEq

/-- Endpoint `TransactionController::store` (lines 184-236) behind the `TransferRequest`
form request: a failing validation short-circuits with a 422 response before
the controller body runs (Laravel's `ValidationException`); otherwise the
receiver is resolved by email and the Transfer Engine is invoked with the
caller-supplied or derived idempotency key; engine failures map to 400.
The `none` receiver branch after a passing validation is unreachable (the
`exists` rule guarantees the row); in PHP it would be a null-dereference
fatal, modelled as 500. -/
def storeTransaction (st : WalletState) (sender : User) (receiver_email : String)
    (amount : ℤ) (idempotencyKey : String) (metadata : String) :
    StoreResult × WalletState :=
  let errs := transferRequestErrors st.users sender.email receiver_email amount
  if errs ≠ [] then (⟨422, errs, none⟩, st)
  else
    match findUserByEmail st.users receiver_email with
    | some receiver =>
      match transfer st sender.id receiver.id amount idempotencyKey metadata with
      | .ok (t, st1) => (⟨201, [], some t⟩, st1)
      | .error _ => (⟨400, [], none⟩, st)
    | none => (⟨500, [], none⟩, st)

/-! ### The outbox worker (`ProcessTransactionOutbox`) -/

/-- A message published to the push sink. `channel` is the wire name of the
receiver's private channel: `ProcessTransactionOutbox::broadcastEvent` writes
`"private-user.{receiver_id}"`, the Pusher wire encoding of the private
channel `user.<receiver_id>` (the event-dispatch variant of the worker builds
the same channel as `new PrivateChannel('user.' . receiver_id)`). -/
structure PushEvent where
  channel : String
  eventName : String
  transaction_uuid : ℕ
  amount : ℤ
  new_balance : ℤ
  sender_id : ℕ
  sender_name : String
  sender_email : String
  receiver_id : ℕ
deriving DecidableEq

/-- Status write `outbox->update(status = s)`: set the status of the outbox row
with the given surrogate id (ids are unique, so the first match is the row). -/
def setOutboxStatus : List OutboxEntry → ℕ → String → List OutboxEntry
  | [], _, _ => []
  | ob :: rest, obId, s =>
    if ob.id = obId then { ob with status := s } :: rest
    else ob :: setOutboxStatus rest obId s

/-- Attempt counting `outbox->increment(attempts)` on the exception path. -/
def incrementAttempts : List OutboxEntry → ℕ → List OutboxEntry
  | [], _ => []
  | ob :: rest, obId =>
    if ob.id = obId then { ob with attempts := ob.attempts + 1 } :: rest
    else ob :: incrementAttempts rest obId

/-- The worker `ProcessTransactionOutbox::handle` with `broadcastEvent`: load the entry
by id (absent → return), skip if already `delivered`, look up the sender
(absent → the job throws after incrementing `attempts`), publish exactly one
`money.received` event to the receiver's private channel with
`new_balance := payload.receiver_balance`, and mark the entry `delivered`.
The `validatePayload` field-presence check always passes here because the
payload is the typed record the Transfer Engine wrote. Returns the new state
and the list of published events. -/
def handleOutbox (st : WalletState) (outboxId : ℕ) : WalletState × List PushEvent :=
  match st.outbox.find? (fun ob => ob.id = outboxId) with
  | none => (st, [])
  | some ob =>
    if ob.status = "delivered" then (st, [])
    else
      match findUser st.users ob.payload.sender_id with
      | none => ({ st with outbox := incrementAttempts st.outbox outboxId }, [])
      | some sender =>
        let ev : PushEvent :=
          { channel := "private-user." ++ toString ob.payload.receiver_id,
            eventName := "money.received",
            transaction_uuid := ob.payload.transaction_uuid,
            amount := ob.payload.amount,
            new_balance := ob.payload.receiver_balance,
            sender_id := ob.payload.sender_id,
            sender_name := sender.name,
            sender_email := sender.email,
            receiver_id := ob.payload.receiver_id }
        ({ st with outbox := setOutboxStatus st.outbox outboxId "delivered" }, [ev])

/-! ### Store well-formedness -/

/-- Freshness of the generated keys: every stored row uses a transaction uuid
below the uuid counter and an outbox id below the outbox counter. Holds for
any store populated only by the engine, and is preserved by `transfer`. -/
def countersFresh (st : WalletState) : Prop :=
  (∀ t ∈ st.transactions, t.uuid < st.next_uuid) ∧
    (∀ sn ∈ st.snapshots, sn.transaction_uuid < st.next_uuid) ∧
    (∀ ob ∈ st.outbox, ob.transaction_uuid < st.next_uuid) ∧
    (∀ ob ∈ st.outbox, ob.id < st.next_outbox_id)

instance (st : WalletState) : Decidable (countersFresh st) := by
  unfold countersFresh
  infer_instance

/-! ### Concrete stores used to instantiate the theorems -/

/-- A seeded user holding her initial balance. -/
def alice : User :=
  { id := 1, name := "Alice", email := "alice@example.com",
    balance := 100000, initial_balance := 100000 }

/-- A second seeded user. -/
def bob : User :=
  { id := 2, name := "Bob", email := "bob@example.com",
    balance := 50000, initial_balance := 50000 }

/-- A two-user store fresh out of seeding: Alice and Bob hold their initial
balances and no transfer has happened yet. -/
def demoState : WalletState :=
  { users := [alice, bob],
    transactions := [], snapshots := [], outbox := [],
    next_uuid := 0, next_outbox_id := 0, clock := 0 }

/-- The committed pair of a successful `transfer` call (with a throwaway
fallback on error), used to name concrete results when instantiating the
theorems. -/
def transferResult (st : WalletState) (sid rid : ℕ) (a : ℤ) (K m : String) :
    Transaction × WalletState :=
  match transfer st sid rid a K m with
  | .ok p => p
  | .error _ => ({ uuid := 0, sender_id := 0, receiver_id := 0, amount := 0,
                   commission := 0, status := "", idempotency_key := "",
                   metadata := "", created_at := 0 }, st)

/-- The store `demoState` after Alice commits a 10000-cent transfer to Bob. -/
def demoState1 : WalletState :=
  (applyTransfer demoState ⟨1, 2, 10000, "k1", ""⟩)

/-- A one-transaction ledger whose single row has user 1 as receiver,
exercising the direction filter. -/
def receivedTx : Transaction :=
  { uuid := 7, sender_id := 2, receiver_id := 1, amount := 500, commission := 8,
    status := "completed", idempotency_key := "r1", metadata := "",
    created_at := 3 }

/-- A store holding just `receivedTx`. -/
def listState : WalletState :=
  { users := [], transactions := [receivedTx], snapshots := [], outbox := [],
    next_uuid := 8, next_outbox_id := 1, clock := 4 }

/-! ## Supporting lemmas -/

/-- The input validation accepts exactly the calls with distinct parties and a
positive amount. -/
lemma validateTransferInputs_eq_none {sid rid : ℕ} {a : ℤ} (hne : sid ≠ rid)
    (hpos : 0 < a) : validateTransferInputs sid rid a = none := by
  unfold validateTransferInputs
  rw [if_neg hne, if_neg (by omega)]

/-- Conversely, a passing validation means distinct parties and positive
amount. -/
lemma validateTransferInputs_none {sid rid : ℕ} {a : ℤ}
    (h : validateTransferInputs sid rid a = none) : sid ≠ rid ∧ 0 < a := by
  unfold validateTransferInputs at h
  split_ifs at h with h1 h2
  exact ⟨h1, by omega⟩

/-- Writing one user's balance does not disturb the lookup of another id. -/
lemma findUser_setBalance_ne :
    ∀ (users : List User) {uid vid : ℕ} (b : ℤ), uid ≠ vid →
      findUser (setBalance users uid b) vid = findUser users vid
  | [], _, _, _, _ => rfl
  | u :: rest, uid, vid, b, h => by
    unfold setBalance findUser
    by_cases hu : u.id = uid
    · rw [if_pos hu]
      have hv : ¬ u.id = vid := fun hc => h (hu ▸ hc ▸ rfl)
      rw [List.find?_cons_of_neg _ (by simpa using hv),
        List.find?_cons_of_neg _ (by simpa using hv)]
    · rw [if_neg hu]
      by_cases hv : u.id = vid
      · rw [List.find?_cons_of_pos _ (by simpa using hv),
          List.find?_cons_of_pos _ (by simpa using hv)]
      · rw [List.find?_cons_of_neg _ (by simpa using hv),
          List.find?_cons_of_neg _ (by simpa using hv)]
        exact findUser_setBalance_ne rest b h

/-- Writing a user's balance updates the row that `findUser` returns. -/
lemma findUser_setBalance_self :
    ∀ (users : List User) {uid : ℕ} (b : ℤ) {u : User},
      findUser users uid = some u →
      findUser (setBalance users uid b) uid = some { u with balance := b }
  | [], _, _, _, h => by simp [findUser] at h
  | v :: rest, uid, b, u, h => by
    unfold setBalance findUser
    by_cases hv : v.id = uid
    · rw [if_pos hv]
      have hu : v = u := by
        unfold findUser at h
        rw [List.find?_cons_of_pos _ (by simpa using hv)] at h
        exact Option.some.inj h
      rw [List.find?_cons_of_pos _ (by simpa using hv), hu]
    · rw [if_neg hv]
      have h1 : findUser rest uid = some u := by
        unfold findUser at h
        rwa [List.find?_cons_of_neg _ (by simpa using hv)] at h
      rw [List.find?_cons_of_neg _ (by simpa using hv)]
      exact findUser_setBalance_self rest b h1

/-- Unfolding `balanceDelta` over a cons cell. -/
lemma balanceDelta_cons (u : User) (us : List User) :
    balanceDelta (u :: us) = (u.balance - u.initial_balance) + balanceDelta us := by
  simp [balanceDelta]

/-- Writing one user's balance moves the balance sum by the difference. -/
lemma balanceDelta_setBalance :
    ∀ (users : List User) {uid : ℕ} (b : ℤ) {u : User},
      findUser users uid = some u →
      balanceDelta (setBalance users uid b) = balanceDelta users + (b - u.balance)
  | [], _, _, _, h => by simp [findUser] at h
  | v :: rest, uid, b, u, h => by
    unfold setBalance
    by_cases hv : v.id = uid
    · rw [if_pos hv]
      have hu : v = u := by
        unfold findUser at h
        rw [List.find?_cons_of_pos _ (by simpa using hv)] at h
        exact Option.some.inj h
      rw [balanceDelta_cons, balanceDelta_cons, hu]
      ring
    · rw [if_neg hv]
      have h1 : findUser rest uid = some u := by
        unfold findUser at h
        rwa [List.find?_cons_of_neg _ (by simpa using hv)] at h
      rw [balanceDelta_cons, balanceDelta_cons, balanceDelta_setBalance rest b h1]
      ring

/-- A ledger of users still holding their initial balances sums to zero. -/
lemma balanceDelta_eq_zero {users : List User}
    (h : ∀ u ∈ users, u.balance = u.initial_balance) : balanceDelta users = 0 := by
  induction users with
  | nil => rfl
  | cons u rest ih =>
    rw [balanceDelta_cons, h u (by simp), ih fun v hv => h v (by simp [hv])]
    ring

/-- The sum `completedCommission` distributes over append. -/
lemma completedCommission_append (l1 l2 : List Transaction) :
    completedCommission (l1 ++ l2) =
      completedCommission l1 + completedCommission l2 := by
  simp [completedCommission, List.filter_append]

/-- Inversion of a committing `transfer` run (the idempotency key is fresh):
both parties were found, the inputs were valid, the balance sufficed, and the
returned row and new state are exactly the ones the engine builds. -/
lemma transfer_ok_inv {st : WalletState} {sid rid : ℕ} {a : ℤ} {K m : String}
    {t : Transaction} {st1 : WalletState}
    (hK : st.transactions.find? (fun t0 => t0.idempotency_key = K) = none)
    (h : transfer st sid rid a K m = .ok (t, st1)) :
    ∃ su ru,
      findUser st.users sid = some su ∧
      findUser st.users rid = some ru ∧
      sid ≠ rid ∧ 0 < a ∧
      a + commission a ≤ su.balance ∧
      t = { uuid := st.next_uuid, sender_id := sid, receiver_id := rid,
            amount := a, commission := commission a, status := "completed",
            idempotency_key := K, metadata := m, created_at := st.clock } ∧
      st1 =
        { users := setBalance (setBalance st.users sid
              (su.balance - (a + commission a))) rid (ru.balance + a),
          transactions := st.transactions ++ [t],
          snapshots := st.snapshots ++
            [{ user_id := sid, balance := su.balance - (a + commission a),
               transaction_uuid := st.next_uuid },
             { user_id := rid, balance := ru.balance + a,
               transaction_uuid := st.next_uuid }],
          outbox := st.outbox ++
            [{ id := st.next_outbox_id, transaction_uuid := st.next_uuid,
               event_type := "money.transferred",
               payload :=
                 { transaction_uuid := st.next_uuid, sender_id := sid,
                   receiver_id := rid, amount := a, commission := commission a,
                   sender_balance := su.balance - (a + commission a),
                   receiver_balance := ru.balance + a },
               status := "pending", attempts := 0 }],
          next_uuid := st.next_uuid + 1,
          next_outbox_id := st.next_outbox_id + 1,
          clock := st.clock + 1 } := by
  unfold transfer at h
  cases hval : validateTransferInputs sid rid a with
  | some e => rw [hval] at h; exact Except.noConfusion h
  | none =>
    rw [hval] at h
    obtain ⟨hne, hpos⟩ := validateTransferInputs_none hval
    simp only [hK] at h
    split at h
    · rename_i su ru hs hr
      split at h
      · exact Except.noConfusion h
      · rename_i hb
        obtain ⟨ht, hst⟩ := Prod.mk.inj (Except.ok.inj h)
        refine ⟨su, ru, hs, hr, hne, hpos, by omega, ht.symm, ?_⟩
        rw [← ht]
        exact hst.symm
    · exact Except.noConfusion h

/-- Constructive counterpart of `transfer_ok_inv`: valid inputs, a fresh key,
both users present and a sufficient balance commit the transfer, producing
exactly the row and state of the engine's success branch. -/
lemma transfer_commits {st : WalletState} {sid rid : ℕ} {a : ℤ} {K m : String}
    {su ru : User} (hne : sid ≠ rid) (hpos : 0 < a)
    (hK : st.transactions.find? (fun t0 => t0.idempotency_key = K) = none)
    (hs : findUser st.users sid = some su) (hr : findUser st.users rid = some ru)
    (hb : a + commission a ≤ su.balance) :
    transfer st sid rid a K m = .ok
      ({ uuid := st.next_uuid, sender_id := sid, receiver_id := rid,
         amount := a, commission := commission a, status := "completed",
         idempotency_key := K, metadata := m, created_at := st.clock },
       { users := setBalance (setBalance st.users sid
             (su.balance - (a + commission a))) rid (ru.balance + a),
         transactions := st.transactions ++
           [{ uuid := st.next_uuid, sender_id := sid, receiver_id := rid,
              amount := a, commission := commission a, status := "completed",
              idempotency_key := K, metadata := m, created_at := st.clock }],
         snapshots := st.snapshots ++
           [{ user_id := sid, balance := su.balance - (a + commission a),
              transaction_uuid := st.next_uuid },
            { user_id := rid, balance := ru.balance + a,
              transaction_uuid := st.next_uuid }],
         outbox := st.outbox ++
           [{ id := st.next_outbox_id, transaction_uuid := st.next_uuid,
              event_type := "money.transferred",
              payload :=
                { transaction_uuid := st.next_uuid, sender_id := sid,
                  receiver_id := rid, amount := a, commission := commission a,
                  sender_balance := su.balance - (a + commission a),
                  receiver_balance := ru.balance + a },
              status := "pending", attempts := 0 }],
         next_uuid := st.next_uuid + 1,
         next_outbox_id := st.next_outbox_id + 1,
         clock := st.clock + 1 }) := by
  unfold transfer
  rw [validateTransferInputs_eq_none hne hpos]
  simp only [hK, hs, hr]
  rw [if_neg (by omega)]

/-- A stored idempotency key short-circuits `transfer`: the stored row is
returned and the state is untouched, before any user or balance check. -/
lemma transfer_replay_hit {st : WalletState} {sid rid : ℕ} {a : ℤ} {K m : String}
    {t0 : Transaction}
    (hval : validateTransferInputs sid rid a = none)
    (hK : st.transactions.find? (fun t => t.idempotency_key = K) = some t0) :
    transfer st sid rid a K m = .ok (t0, st) := by
  unfold transfer
  rw [hval]
  simp only [hK]

/-- One transfer call — committed, rejected, or replayed — preserves the
conservation invariant. -/
lemma conservation_applyTransfer (st : WalletState) (call : TransferCall)
    (h : conservation st) : conservation (applyTransfer st call) := by
  unfold applyTransfer
  cases ht : transfer st call.sender_id call.receiver_id call.amount
      call.idempotency_key call.metadata with
  | error e => exact h
  | ok p =>
    obtain ⟨t, st1⟩ := p
    cases hK : st.transactions.find?
        (fun t0 => t0.idempotency_key = call.idempotency_key) with
    | some t0 =>
      cases hval : validateTransferInputs call.sender_id call.receiver_id
          call.amount with
      | some e =>
        rw [show transfer st call.sender_id call.receiver_id call.amount
            call.idempotency_key call.metadata = .error e by
          unfold transfer; rw [hval]] at ht
        exact Except.noConfusion ht
      | none =>
        rw [transfer_replay_hit hval hK] at ht
        obtain ⟨_, hst⟩ := Prod.mk.inj (Except.ok.inj ht)
        rw [← hst]
        exact h
    | none =>
      obtain ⟨su, ru, hs, hr, hne, hpos, hb, htEq, hstEq⟩ := transfer_ok_inv hK ht
      rw [hstEq]
      unfold conservation at h ⊢
      have hru1 : findUser (setBalance st.users call.sender_id
          (su.balance - (call.amount + commission call.amount)))
          call.receiver_id = some ru := by
        rw [findUser_setBalance_ne _ _ hne]
        exact hr
      rw [balanceDelta_setBalance _ _ hru1,
        balanceDelta_setBalance _ _ hs, completedCommission_append]
      have hc1 : completedCommission [t] = commission call.amount := by
        rw [htEq]
        simp [completedCommission]
      rw [hc1]
      omega

/-- Counter freshness is an invariant of the engine: every transfer call
preserves it, so it holds of any store populated only through `transfer`. -/
lemma countersFresh_applyTransfer (st : WalletState) (call : TransferCall)
    (h : countersFresh st) : countersFresh (applyTransfer st call) := by
  unfold applyTransfer
  cases ht : transfer st call.sender_id call.receiver_id call.amount
      call.idempotency_key call.metadata with
  | error e => exact h
  | ok p =>
    obtain ⟨t, st1⟩ := p
    cases hK : st.transactions.find?
        (fun t0 => t0.idempotency_key = call.idempotency_key) with
    | some t0 =>
      cases hval : validateTransferInputs call.sender_id call.receiver_id
          call.amount with
      | some e =>
        rw [show transfer st call.sender_id call.receiver_id call.amount
            call.idempotency_key call.metadata = .error e by
          unfold transfer; rw [hval]] at ht
        exact Except.noConfusion ht
      | none =>
        rw [transfer_replay_hit hval hK] at ht
        obtain ⟨-, hst⟩ := Prod.mk.inj (Except.ok.inj ht)
        rw [← hst]
        exact h
    | none =>
      obtain ⟨su, ru, hs, hr, hne, hpos, hb, htEq, hstEq⟩ := transfer_ok_inv hK ht
      rw [hstEq]
      obtain ⟨h1, h2, h3, h4⟩ := h
      refine ⟨?_, ?_, ?_, ?_⟩ <;> dsimp only <;> intro x hx <;>
        rcases List.mem_append.mp hx with hx | hx
      · exact Nat.lt_succ_of_lt (h1 x hx)
      · rw [List.mem_singleton] at hx
        subst hx
        rw [htEq]
        exact Nat.lt_succ_self _
      · exact Nat.lt_succ_of_lt (h2 x hx)
      · rcases List.mem_cons.mp hx with rfl | hx
        · exact Nat.lt_succ_self _
        · rw [List.mem_singleton] at hx
          subst hx
          exact Nat.lt_succ_self _
      · exact Nat.lt_succ_of_lt (h3 x hx)
      · rw [List.mem_singleton] at hx
        subst hx
        exact Nat.lt_succ_self _
      · exact Nat.lt_succ_of_lt (h4 x hx)
      · rw [List.mem_singleton] at hx
        subst hx
        exact Nat.lt_succ_self _

/-- Conservation is preserved along any sequence of transfer calls. -/
lemma conservation_runTransfers :
    ∀ (calls : List TransferCall) (st : WalletState), conservation st →
      conservation (runTransfers st calls)
  | [], _, h => h
  | c :: rest, st, h =>
    conservation_runTransfers rest _ (conservation_applyTransfer st c h)

/-! ## Claims -/

/-- C1: every transfer committed by the engine stores
`commission = ceil(amount × 3 / 200)` (1.5% rounded up); in particular
amount 1 gives 1, amount 6666 gives 100, and amount 6667 gives 101. -/
theorem commission_law {st : WalletState} {sid rid : ℕ} {a : ℤ} {K m : String}
    {t : Transaction} {st1 : WalletState}
    (hK : st.transactions.find? (fun t0 => t0.idempotency_key = K) = none)
    (h : transfer st sid rid a K m = .ok (t, st1)) :
    0 < t.amount ∧ t ∈ st1.transactions ∧
      t.commission = ⌈(t.amount * 3 : ℚ) / 200⌉ ∧
      commission 1 = 1 ∧ commission 6666 = 100 ∧ commission 6667 = 101 := by
  obtain ⟨su, ru, hs, hr, hne, hpos, hb, htEq, hstEq⟩ := transfer_ok_inv hK h
  refine ⟨?_, ?_, ?_, by decide, by decide, by decide⟩
  · rw [htEq]
    exact hpos
  · rw [hstEq, htEq]
    simp
  · rw [htEq]
    exact commission_eq_ceil a

/-- Witness for C1: Alice's committed 6666-cent transfer to Bob carries
commission 100. -/
theorem commission_law_witness :
    (demoState.transactions.find? (fun t0 => t0.idempotency_key = "c1") = none) ∧
      (transfer demoState 1 2 6666 "c1" "" =
        .ok ((transferResult demoState 1 2 6666 "c1" "").1,
          (transferResult demoState 1 2 6666 "c1" "").2)) ∧
      (0 < (transferResult demoState 1 2 6666 "c1" "").1.amount ∧
        (transferResult demoState 1 2 6666 "c1" "").1 ∈
          (transferResult demoState 1 2 6666 "c1" "").2.transactions ∧
        (transferResult demoState 1 2 6666 "c1" "").1.commission =
          ⌈((transferResult demoState 1 2 6666 "c1" "").1.amount * 3 : ℚ) / 200⌉ ∧
        commission 1 = 1 ∧ commission 6666 = 100 ∧ commission 6667 = 101) :=
  ⟨by decide, by decide,
    @commission_law demoState 1 2 6666 "c1" ""
      (transferResult demoState 1 2 6666 "c1" "").1
      (transferResult demoState 1 2 6666 "c1" "").2 (by decide) (by decide)⟩

/-- C2: starting from users holding their initial balances and an empty
ledger, after any finite sequence of transfer calls (committed, rejected or
replayed) the balance movements and the collected commissions sum to zero:
`Σ(balance − initial_balance) + Σ commission = 0`. -/
theorem conservation_after_transfers (st : WalletState) (calls : List TransferCall)
    (h0 : ∀ u ∈ st.users, u.balance = u.initial_balance)
    (ht : st.transactions = []) :
    conservation (runTransfers st calls) := by
  apply conservation_runTransfers
  unfold conservation
  rw [balanceDelta_eq_zero h0, ht]
  rfl

/-- Witness for C2: a committed transfer, a replay of it, an insufficient
balance rejection and a self-transfer rejection, starting from the seeded
store. -/
theorem conservation_after_transfers_witness :
    (∀ u ∈ demoState.users, u.balance = u.initial_balance) ∧
      demoState.transactions = [] ∧
      conservation (runTransfers demoState
        [⟨1, 2, 10000, "k1", ""⟩, ⟨2, 1, 500, "k2", ""⟩, ⟨1, 2, 10000, "k1", ""⟩,
         ⟨1, 2, 1000000000, "k3", ""⟩, ⟨1, 1, 5, "k4", ""⟩]) :=
  ⟨by decide, rfl,
    conservation_after_transfers demoState
      [⟨1, 2, 10000, "k1", ""⟩, ⟨2, 1, 500, "k2", ""⟩, ⟨1, 2, 10000, "k1", ""⟩,
       ⟨1, 2, 1000000000, "k3", ""⟩, ⟨1, 1, 5, "k4", ""⟩] (by decide) rfl⟩

/-- C3: a second `transfer` call with the same idempotency key, issued after
the first has committed, returns the very same `Transaction` row and the very
same state: no balance mutation, no new ledger row, snapshot or outbox
entry. -/
theorem transfer_replay_idempotent {st : WalletState} {sid rid : ℕ} {a : ℤ}
    {K m : String} {t : Transaction} {st1 : WalletState}
    (hK : ∀ t0 ∈ st.transactions, t0.idempotency_key ≠ K)
    (h : transfer st sid rid a K m = .ok (t, st1)) :
    transfer st1 sid rid a K m = .ok (t, st1) := by
  have hKn : st.transactions.find? (fun t0 => t0.idempotency_key = K) = none :=
    List.find?_eq_none.mpr fun x hx => by simpa using hK x hx
  obtain ⟨su, ru, hs, hr, hne, hpos, hb, htEq, hstEq⟩ := transfer_ok_inv hKn h
  have hfind : st1.transactions.find? (fun t0 => t0.idempotency_key = K) =
      some t := by
    rw [hstEq]
    simp only [List.find?_append, hKn, Option.none_or]
    apply List.find?_cons_of_pos
    rw [htEq]
    simp
  exact transfer_replay_hit (validateTransferInputs_eq_none hne hpos) hfind

/-- Witness for C3: replaying Alice's committed transfer returns the same row
and leaves the state as it was. -/
theorem transfer_replay_idempotent_witness :
    (∀ t0 ∈ demoState.transactions, t0.idempotency_key ≠ "k1") ∧
      (transfer demoState 1 2 10000 "k1" "" =
        .ok ((transferResult demoState 1 2 10000 "k1" "").1,
          (transferResult demoState 1 2 10000 "k1" "").2)) ∧
      transfer (transferResult demoState 1 2 10000 "k1" "").2 1 2 10000 "k1" "" =
        .ok ((transferResult demoState 1 2 10000 "k1" "").1,
          (transferResult demoState 1 2 10000 "k1" "").2) :=
  ⟨by decide, by decide,
    @transfer_replay_idempotent demoState 1 2 10000 "k1" ""
      (transferResult demoState 1 2 10000 "k1" "").1
      (transferResult demoState 1 2 10000 "k1" "").2 (by decide) (by decide)⟩

/-- C10: the replay matches on the idempotency key alone — any later call
passing input validation with a stored key returns the stored row unchanged,
raising no error and moving no money, even when sender, receiver or amount
differ from the stored row's fields. -/
theorem replay_matches_key_alone {st : WalletState} {sid rid : ℕ} {a : ℤ}
    {K m : String} {t0 : Transaction} (hne : sid ≠ rid) (hpos : 0 < a)
    (hK : st.transactions.find? (fun t => t.idempotency_key = K) = some t0) :
    transfer st sid rid a K m = .ok (t0, st) :=
  transfer_replay_hit (validateTransferInputs_eq_none hne hpos) hK

/-- Witness for C10: after Alice's 10000-cent transfer to Bob under key `k1`,
a call with swapped parties and a different amount under `k1` returns the
stored row and leaves the state untouched. -/
theorem replay_matches_key_alone_witness :
    ((2 : ℕ) ≠ 1) ∧ ((0 : ℤ) < 777) ∧
      ((transferResult demoState 1 2 10000 "k1" "").2.transactions.find?
        (fun t => t.idempotency_key = "k1") =
          some (transferResult demoState 1 2 10000 "k1" "").1) ∧
      transfer (transferResult demoState 1 2 10000 "k1" "").2 2 1 777 "k1" "x" =
        .ok ((transferResult demoState 1 2 10000 "k1" "").1,
          (transferResult demoState 1 2 10000 "k1" "").2) :=
  ⟨by decide, by decide, by decide,
    @replay_matches_key_alone (transferResult demoState 1 2 10000 "k1" "").2
      2 1 777 "k1" "x" (transferResult demoState 1 2 10000 "k1" "").1
      (by decide) (by decide) (by decide)⟩

/-- An insufficient balance (with both users present and a fresh key) makes
`transfer` fail with `InsufficientBalance`. -/
lemma transfer_insufficient {st : WalletState} {sid rid : ℕ} {a : ℤ} {K m : String}
    {su ru : User} (hne : sid ≠ rid) (hpos : 0 < a)
    (hK : st.transactions.find? (fun t0 => t0.idempotency_key = K) = none)
    (hs : findUser st.users sid = some su) (hr : findUser st.users rid = some ru)
    (hb : su.balance < a + commission a) :
    transfer st sid rid a K m = .error .insufficientBalance := by
  unfold transfer
  rw [validateTransferInputs_eq_none hne hpos]
  simp only [hK, hs, hr]
  rw [if_pos hb]

/-- C4: with valid inputs (distinct existing users, positive amount, fresh
key), a sender balance exactly equal to `amount + commission` commits and
leaves the sender at 0, while a smaller balance fails with
`InsufficientBalance` and changes nothing — no balance movement and no
transaction, snapshot or outbox row. -/
theorem transfer_balance_boundary {st : WalletState} {sid rid : ℕ} {a : ℤ}
    {K m : String} {su ru : User} (hne : sid ≠ rid) (hpos : 0 < a)
    (hK : st.transactions.find? (fun t0 => t0.idempotency_key = K) = none)
    (hs : findUser st.users sid = some su) (hr : findUser st.users rid = some ru) :
    (su.balance = a + commission a →
      ∃ t st1, transfer st sid rid a K m = .ok (t, st1) ∧
        findUser st1.users sid = some { su with balance := 0 }) ∧
    (su.balance < a + commission a →
      transfer st sid rid a K m = .error .insufficientBalance ∧
        applyTransfer st ⟨sid, rid, a, K, m⟩ = st) := by
  constructor
  · intro hbal
    refine ⟨_, _, transfer_commits hne hpos hK hs hr (le_of_eq hbal.symm), ?_⟩
    rw [findUser_setBalance_ne _ _ (Ne.symm hne), findUser_setBalance_self _ _ hs]
    have hx : su.balance - (a + commission a) = 0 := by omega
    rw [hx]
  · intro hbal
    have he := @transfer_insufficient st sid rid a K m su ru hne hpos hK hs hr hbal
    refine ⟨he, ?_⟩
    unfold applyTransfer
    rw [he]

/-- Witness for C4: Alice holds exactly `98522 + commission 98522 = 100000`
cents. -/
theorem transfer_balance_boundary_witness :
    ((1 : ℕ) ≠ 2) ∧ ((0 : ℤ) < 98522) ∧
      (demoState.transactions.find? (fun t0 => t0.idempotency_key = "x1") =
        none) ∧
      (findUser demoState.users 1 = some alice) ∧
      (findUser demoState.users 2 = some bob) ∧
      ((alice.balance = 98522 + commission 98522 →
        ∃ t st1, transfer demoState 1 2 98522 "x1" "" = .ok (t, st1) ∧
          findUser st1.users 1 = some { alice with balance := 0 }) ∧
      (alice.balance < 98522 + commission 98522 →
        transfer demoState 1 2 98522 "x1" "" = .error .insufficientBalance ∧
          applyTransfer demoState ⟨1, 2, 98522, "x1", ""⟩ = demoState)) :=
  ⟨by decide, by decide, by decide, by decide, by decide,
    @transfer_balance_boundary demoState 1 2 98522 "x1" "" alice bob
      (by decide) (by decide) (by decide) (by decide) (by decide)⟩

/-- Old snapshots never reference a uuid at or above the counter. -/
lemma filter_snapshots_fresh {sns : List BalanceSnapshot} {n : ℕ}
    (h : ∀ sn ∈ sns, sn.transaction_uuid < n) :
    sns.filter (fun sn => sn.transaction_uuid == n) = [] :=
  List.filter_eq_nil_iff.mpr fun x hx => by
    simpa using Nat.ne_of_lt (h x hx)

/-- Old outbox entries never reference a uuid at or above the counter. -/
lemma filter_outbox_fresh {obs : List OutboxEntry} {n : ℕ}
    (h : ∀ ob ∈ obs, ob.transaction_uuid < n) :
    obs.filter (fun ob => ob.transaction_uuid == n) = [] :=
  List.filter_eq_nil_iff.mpr fun x hx => by
    simpa using Nat.ne_of_lt (h x hx)

/-- C5: every committed transfer writes, in its atomic unit, exactly two
balance snapshots and exactly one outbox entry referencing its uuid; the
sender's snapshot carries the pre-transfer balance minus
`amount + commission`, the receiver's the pre-transfer balance plus the
amount. (An error rolls the whole unit back, so the rows exist only
together.) -/
theorem snapshot_outbox_per_commit {st : WalletState} {sid rid : ℕ} {a : ℤ}
    {K m : String} {t : Transaction} {st1 : WalletState} {su ru : User}
    (hfresh : countersFresh st)
    (hK : st.transactions.find? (fun t0 => t0.idempotency_key = K) = none)
    (hs : findUser st.users sid = some su) (hr : findUser st.users rid = some ru)
    (h : transfer st sid rid a K m = .ok (t, st1)) :
    st1.snapshots.filter (fun sn => sn.transaction_uuid == t.uuid) =
      [{ user_id := sid, balance := su.balance - (a + commission a),
         transaction_uuid := t.uuid },
       { user_id := rid, balance := ru.balance + a,
         transaction_uuid := t.uuid }] ∧
    st1.outbox.filter (fun ob => ob.transaction_uuid == t.uuid) =
      [{ id := st.next_outbox_id, transaction_uuid := t.uuid,
         event_type := "money.transferred",
         payload :=
           { transaction_uuid := t.uuid, sender_id := sid, receiver_id := rid,
             amount := a, commission := commission a,
             sender_balance := su.balance - (a + commission a),
             receiver_balance := ru.balance + a },
         status := "pending", attempts := 0 }] := by
  obtain ⟨su', ru', hs', hr', hne, hpos, hb, htEq, hstEq⟩ := transfer_ok_inv hK h
  rw [hs] at hs'
  rw [hr] at hr'
  obtain rfl : su = su' := Option.some.inj hs'
  obtain rfl : ru = ru' := Option.some.inj hr'
  rw [hstEq, htEq]
  dsimp only
  rw [List.filter_append, List.filter_append,
    filter_snapshots_fresh hfresh.2.1, filter_outbox_fresh hfresh.2.2.1]
  simp

/-- Witness for C5: the snapshots and outbox entry of Alice's 10000-cent
transfer. -/
theorem snapshot_outbox_per_commit_witness :
    countersFresh demoState ∧
      (demoState.transactions.find? (fun t0 => t0.idempotency_key = "k1") =
        none) ∧
      (findUser demoState.users 1 = some alice) ∧
      (findUser demoState.users 2 = some bob) ∧
      (transfer demoState 1 2 10000 "k1" "" =
        .ok ((transferResult demoState 1 2 10000 "k1" "").1,
          (transferResult demoState 1 2 10000 "k1" "").2)) ∧
      ((transferResult demoState 1 2 10000 "k1" "").2.snapshots.filter
          (fun sn => sn.transaction_uuid ==
            (transferResult demoState 1 2 10000 "k1" "").1.uuid) =
        [{ user_id := 1, balance := alice.balance - (10000 + commission 10000),
           transaction_uuid := (transferResult demoState 1 2 10000 "k1" "").1.uuid },
         { user_id := 2, balance := bob.balance + 10000,
           transaction_uuid := (transferResult demoState 1 2 10000 "k1" "").1.uuid }] ∧
      (transferResult demoState 1 2 10000 "k1" "").2.outbox.filter
          (fun ob => ob.transaction_uuid ==
            (transferResult demoState 1 2 10000 "k1" "").1.uuid) =
        [{ id := demoState.next_outbox_id,
           transaction_uuid := (transferResult demoState 1 2 10000 "k1" "").1.uuid,
           event_type := "money.transferred",
           payload :=
             { transaction_uuid := (transferResult demoState 1 2 10000 "k1" "").1.uuid,
               sender_id := 1, receiver_id := 2, amount := 10000,
               commission := commission 10000,
               sender_balance := alice.balance - (10000 + commission 10000),
               receiver_balance := bob.balance + 10000 },
           status := "pending", attempts := 0 }]) :=
  ⟨by decide, by decide, by decide, by decide, by decide,
    @snapshot_outbox_per_commit demoState 1 2 10000 "k1" ""
      (transferResult demoState 1 2 10000 "k1" "").1
      (transferResult demoState 1 2 10000 "k1" "").2 alice bob
      (by decide) (by decide) (by decide) (by decide) (by decide)⟩

/-- C6 counterexample: a call with an **empty** idempotency key is not
rejected — no `InvalidIdempotencyKey` failure exists in the engine — and the
transfer commits, mutating the store and storing `""` as the key. -/
theorem empty_key_accepted_cex :
    transfer demoState 1 2 1000 "" "" =
      .ok ((transferResult demoState 1 2 1000 "" "").1,
        (transferResult demoState 1 2 1000 "" "").2) ∧
      (transferResult demoState 1 2 1000 "" "").2 ≠ demoState ∧
      (transferResult demoState 1 2 1000 "" "").1.idempotency_key = "" :=
  ⟨by decide, by decide, by decide⟩

/-- C6 (amended): the engine validates only `sender ≠ receiver` and
`amount > 0`; an empty idempotency key passes the precondition checks and the
transfer proceeds — with both users present, the key unseen and a sufficient
balance it commits normally, storing `""` as the row's idempotency key. -/
theorem empty_key_amended {st : WalletState} {sid rid : ℕ} {a : ℤ} {m : String}
    {su ru : User} (hne : sid ≠ rid) (hpos : 0 < a)
    (hK : st.transactions.find? (fun t0 => t0.idempotency_key = "") = none)
    (hs : findUser st.users sid = some su) (hr : findUser st.users rid = some ru)
    (hb : a + commission a ≤ su.balance) :
    ∃ t st1, transfer st sid rid a "" m = .ok (t, st1) ∧
      t.idempotency_key = "" :=
  ⟨_, _, transfer_commits hne hpos hK hs hr hb, rfl⟩

/-- Witness for C6 (amended): the empty-key transfer on the seeded store. -/
theorem empty_key_amended_witness :
    ((1 : ℕ) ≠ 2) ∧ ((0 : ℤ) < 1000) ∧
      (demoState.transactions.find? (fun t0 => t0.idempotency_key = "") =
        none) ∧
      (findUser demoState.users 1 = some alice) ∧
      (findUser demoState.users 2 = some bob) ∧
      (1000 + commission 1000 ≤ alice.balance) ∧
      (∃ t st1, transfer demoState 1 2 1000 "" "" = .ok (t, st1) ∧
        t.idempotency_key = "") :=
  ⟨by decide, by decide, by decide, by decide, by decide, by decide,
    @empty_key_amended demoState 1 2 1000 "" alice bob
      (by decide) (by decide) (by decide) (by decide) (by decide) (by decide)⟩

/-- Membership in an insertion step. -/
lemma mem_insertDesc {x t : Transaction} :
    ∀ {l : List Transaction}, x ∈ insertDesc t l ↔ x = t ∨ x ∈ l
  | [] => by simp [insertDesc]
  | u :: rest => by
    unfold insertDesc
    by_cases hc : u.created_at ≤ t.created_at
    · rw [if_pos hc]
      simp [List.mem_cons]
    · rw [if_neg hc]
      simp only [List.mem_cons, mem_insertDesc]
      tauto

/-- Inserting into a descending list keeps it descending. -/
lemma pairwise_insertDesc {t : Transaction} :
    ∀ {l : List Transaction},
      l.Pairwise (fun x y => y.created_at ≤ x.created_at) →
      (insertDesc t l).Pairwise (fun x y => y.created_at ≤ x.created_at)
  | [], _ => by simp [insertDesc]
  | u :: rest, h => by
    rw [List.pairwise_cons] at h
    unfold insertDesc
    by_cases hc : u.created_at ≤ t.created_at
    · rw [if_pos hc]
      refine List.pairwise_cons.mpr ⟨?_, List.pairwise_cons.mpr h⟩
      intro x hx
      rcases List.mem_cons.mp hx with rfl | hx
      · exact hc
      · exact le_trans (h.1 x hx) hc
    · rw [if_neg hc]
      refine List.pairwise_cons.mpr ⟨?_, pairwise_insertDesc h.2⟩
      intro x hx
      rcases mem_insertDesc.mp hx with rfl | hx
      · omega
      · exact h.1 x hx

/-- The insertion sort emits a descending list. -/
lemma pairwise_orderByCreatedAtDesc (l : List Transaction) :
    (orderByCreatedAtDesc l).Pairwise (fun x y => y.created_at ≤ x.created_at) := by
  induction l with
  | nil => exact List.Pairwise.nil
  | cons x xs ih => exact pairwise_insertDesc ih

/-- The insertion sort is a permutation in the membership sense. -/
lemma mem_orderByCreatedAtDesc {x : Transaction} :
    ∀ {l : List Transaction}, x ∈ orderByCreatedAtDesc l ↔ x ∈ l
  | [] => Iff.rfl
  | u :: rest => by
    show x ∈ insertDesc u (orderByCreatedAtDesc rest) ↔ _
    rw [mem_insertDesc, mem_orderByCreatedAtDesc]
    simp [List.mem_cons]

/-- Any row served by the paginated listing satisfies the direction filter. -/
lemma directionFilter_of_mem_getPaginated {t : Transaction} {txs : List Transaction}
    {userId pp page : ℕ} {dir : Option String}
    (h : t ∈ getPaginatedForUser txs userId pp dir page) :
    directionFilter userId dir t = true := by
  unfold getPaginatedForUser at h
  have h1 := List.drop_subset _ _ (List.take_subset _ _ h)
  exact (List.mem_filter.mp (mem_orderByCreatedAtDesc.mp h1)).2

/-- C7 counterexample: on a ledger whose only row has user 1 as **receiver**,
the listing with `direction = "sent"` still returns that row — `'sent'` is
not one of the repository's recognized direction values, so it falls into
the sender-or-receiver branch. -/
theorem direction_sent_cex :
    transactionIndex listState 1 (some "sent") none 1 = [receivedTx] ∧
      receivedTx.sender_id ≠ 1 ∧ receivedTx.receiver_id = 1 :=
  ⟨by decide, by decide, by decide⟩

/-- C7 (amended): the repository recognizes `'out'` (rows where the user is
the sender) and `'in'` (rows where the user is the receiver); every other
direction value — including the API-documented `'all'`, `'sent'` and
`'received'` — applies the sender-or-receiver filter; all listings are
ordered by `created_at` descending. -/
theorem direction_filter_amended (txs : List Transaction) (userId pp page : ℕ) :
    (∀ t ∈ getPaginatedForUser txs userId pp (some "out") page,
      t.sender_id = userId) ∧
    (∀ t ∈ getPaginatedForUser txs userId pp (some "in") page,
      t.receiver_id = userId) ∧
    (∀ dir, dir ≠ some "in" → dir ≠ some "out" → ∀ t,
      directionFilter userId dir t =
        (t.sender_id == userId || t.receiver_id == userId)) ∧
    (∀ dir, (getPaginatedForUser txs userId pp dir page).Pairwise
      (fun x y => y.created_at ≤ x.created_at)) := by
  refine ⟨?_, ?_, ?_, ?_⟩
  · intro t ht
    have h := directionFilter_of_mem_getPaginated ht
    unfold directionFilter at h
    simpa using h
  · intro t ht
    have h := directionFilter_of_mem_getPaginated ht
    unfold directionFilter at h
    simpa using h
  · intro dir h1 h2 t
    unfold directionFilter
    split
    · exact absurd rfl h1
    · exact absurd rfl h2
    · rfl
  · intro dir
    unfold getPaginatedForUser
    exact ((pairwise_orderByCreatedAtDesc _).sublist
      (List.drop_sublist _ _)).sublist (List.take_sublist _ _)

/-- Witness for C7 (amended): the single received row is served under
`'in'`, and `'sent'` takes the sender-or-receiver branch. -/
theorem direction_filter_amended_witness :
    (receivedTx ∈ getPaginatedForUser [receivedTx] 1 20 (some "in") 1) ∧
      receivedTx.receiver_id = 1 ∧
      (some "sent" ≠ some "in") ∧ (some "sent" ≠ some "out") ∧
      directionFilter 1 (some "sent") receivedTx =
        (receivedTx.sender_id == 1 || receivedTx.receiver_id == 1) :=
  ⟨by decide,
    (direction_filter_amended [receivedTx] 1 20 1).2.1 receivedTx (by decide),
    by decide, by decide,
    (direction_filter_amended [receivedTx] 1 20 1).2.2.1 (some "sent")
      (by decide) (by decide) receivedTx⟩

/-- C8 counterexample: a POST /api/transactions with an unknown
`receiver_email` is rejected by the `exists:users,email` validation rule,
which surfaces as a **422** validation response — not a 404 — carrying the
message `'No user found with this email'`; no state changes. -/
theorem receiver_not_found_cex :
    (storeTransaction demoState alice "ghost@example.com" 1000 "k9" "").1.status
        = 422 ∧
      (storeTransaction demoState alice "ghost@example.com" 1000 "k9" "").1.status
        ≠ 404 ∧
      (storeTransaction demoState alice "ghost@example.com" 1000 "k9" "").1.messages
        = ["No user found with this email"] ∧
      (storeTransaction demoState alice "ghost@example.com" 1000 "k9" "").2
        = demoState :=
  ⟨by decide, by decide, by decide, by decide⟩

/-- C8 (amended): a POST /api/transactions whose `receiver_email` matches no
user fails validation with a 422 response whose messages include
`'No user found with this email'`; no transfer is attempted and no state
changes. -/
theorem receiver_not_found_amended {st : WalletState} {sender : User}
    {email : String} {a : ℤ} {K m : String}
    (h : findUserByEmail st.users email = none) :
    (storeTransaction st sender email a K m).1.status = 422 ∧
      "No user found with this email" ∈
        (storeTransaction st sender email a K m).1.messages ∧
      (storeTransaction st sender email a K m).1.transaction = none ∧
      (storeTransaction st sender email a K m).2 = st := by
  unfold storeTransaction transferRequestErrors
  rw [h]
  simp

/-- Witness for C8 (amended): the seeded store has no user with the ghost
email. -/
theorem receiver_not_found_amended_witness :
    (findUserByEmail demoState.users "ghost@example.com" = none) ∧
      ((storeTransaction demoState alice "ghost@example.com" 5 "k9" "x").1.status
          = 422 ∧
        "No user found with this email" ∈
          (storeTransaction demoState alice "ghost@example.com" 5 "k9" "x").1.messages ∧
        (storeTransaction demoState alice "ghost@example.com" 5 "k9" "x").1.transaction
          = none ∧
        (storeTransaction demoState alice "ghost@example.com" 5 "k9" "x").2
          = demoState) :=
  ⟨by decide,
    @receiver_not_found_amended demoState alice "ghost@example.com" 5 "k9" "x"
      (by decide)⟩

/-- Finding the freshly inserted outbox row by its surrogate id. -/
lemma findOutbox_append_fresh {obs : List OutboxEntry} {nid : ℕ} {ob : OutboxEntry}
    (hf : ∀ o ∈ obs, o.id < nid) (hid : ob.id = nid) :
    (obs ++ [ob]).find? (fun o => o.id = nid) = some ob := by
  rw [List.find?_append,
    List.find?_eq_none.mpr fun x hx => by simpa using Nat.ne_of_lt (hf x hx),
    Option.none_or]
  exact List.find?_cons_of_pos _ (by simpa using hid)

/-- C9: running the worker on the freshly committed outbox entry publishes
exactly one push event, on the receiver's private channel
(`private-user.<receiver_id>`, the wire form of `user.<receiver_id>`) with
event name `money.received`, whose `new_balance` is the receiver's
post-transfer balance recorded at commit time — and that value matches the
receiver's stored balance. -/
theorem outbox_delivery {st : WalletState} {sid rid : ℕ} {a : ℤ} {K m : String}
    {t : Transaction} {st1 : WalletState} {su ru : User}
    (hfresh : countersFresh st)
    (hK : st.transactions.find? (fun t0 => t0.idempotency_key = K) = none)
    (hs : findUser st.users sid = some su) (hr : findUser st.users rid = some ru)
    (h : transfer st sid rid a K m = .ok (t, st1)) :
    handleOutbox st1 st.next_outbox_id =
      ({ st1 with
          outbox := setOutboxStatus st1.outbox st.next_outbox_id "delivered" },
       [{ channel := "private-user." ++ toString rid,
          eventName := "money.received",
          transaction_uuid := t.uuid, amount := a,
          new_balance := ru.balance + a, sender_id := sid,
          sender_name := su.name, sender_email := su.email,
          receiver_id := rid }]) ∧
      ∃ r1, findUser st1.users rid = some r1 ∧ r1.balance = ru.balance + a := by
  obtain ⟨su', ru', hs', hr', hne, hpos, hb, htEq, hstEq⟩ := transfer_ok_inv hK h
  rw [hs] at hs'
  rw [hr] at hr'
  obtain rfl : su = su' := Option.some.inj hs'
  obtain rfl : ru = ru' := Option.some.inj hr'
  have h1 : findUser (setBalance st.users sid (su.balance - (a + commission a)))
      rid = some ru := by
    rw [findUser_setBalance_ne _ _ hne]
    exact hr
  constructor
  · unfold handleOutbox
    rw [hstEq]
    dsimp only
    simp only [@findOutbox_append_fresh st.outbox st.next_outbox_id
      { id := st.next_outbox_id, transaction_uuid := st.next_uuid,
        event_type := "money.transferred",
        payload :=
          { transaction_uuid := st.next_uuid, sender_id := sid,
            receiver_id := rid, amount := a, commission := commission a,
            sender_balance := su.balance - (a + commission a),
            receiver_balance := ru.balance + a },
        status := "pending", attempts := 0 } hfresh.2.2.2 rfl]
    rw [if_neg (by decide)]
    rw [findUser_setBalance_ne _ _ (Ne.symm hne), findUser_setBalance_self _ _ hs]
    rw [htEq]
  · refine ⟨{ ru with balance := ru.balance + a }, ?_, rfl⟩
    rw [hstEq]
    dsimp only
    exact findUser_setBalance_self _ _ h1

/-- Witness for C9: delivering the outbox entry of Alice's 10000-cent
transfer publishes one `money.received` event on `private-user.2` with
`new_balance = 60000`. -/
theorem outbox_delivery_witness :
    countersFresh demoState ∧
      (demoState.transactions.find? (fun t0 => t0.idempotency_key = "k1") =
        none) ∧
      (findUser demoState.users 1 = some alice) ∧
      (findUser demoState.users 2 = some bob) ∧
      (transfer demoState 1 2 10000 "k1" "" =
        .ok ((transferResult demoState 1 2 10000 "k1" "").1,
          (transferResult demoState 1 2 10000 "k1" "").2)) ∧
      (handleOutbox (transferResult demoState 1 2 10000 "k1" "").2
          demoState.next_outbox_id =
        ({ (transferResult demoState 1 2 10000 "k1" "").2 with
            outbox := setOutboxStatus
              (transferResult demoState 1 2 10000 "k1" "").2.outbox
              demoState.next_outbox_id "delivered" },
         [{ channel := "private-user." ++ toString 2,
            eventName := "money.received",
            transaction_uuid := (transferResult demoState 1 2 10000 "k1" "").1.uuid,
            amount := 10000, new_balance := bob.balance + 10000, sender_id := 1,
            sender_name := alice.name, sender_email := alice.email,
            receiver_id := 2 }]) ∧
      ∃ r1, findUser (transferResult demoState 1 2 10000 "k1" "").2.users 2 =
          some r1 ∧ r1.balance = bob.balance + 10000) :=
  ⟨by decide, by decide, by decide, by decide, by decide,
    @outbox_delivery demoState 1 2 10000 "k1" ""
      (transferResult demoState 1 2 10000 "k1" "").1
      (transferResult demoState 1 2 10000 "k1" "").2 alice bob
      (by decide) (by decide) (by decide) (by decide) (by decide)⟩

end MiniWallet
